import Mathlib

/-!
Formal model of the PMP (Probable Maximum Precipitation) estimation core of
`app.py`: descriptive statistics, the yearly aggregator, the extreme-value
estimator `calculate_pmp_with_eva`, and the hydrological parameter
calculator.  Python floats are modelled as real numbers; Python's total
`x / y` on nonzero divisors coincides with real division (all divisions in
the source are guarded, which is itself one of the verified claims).
-/

noncomputable section

namespace BTP

/-- `calculate_mean` (app.py lines 8-11): arithmetic mean, 0 for `[]`. -/
def calculate_mean (values : List ℝ) : ℝ :=
  if values = [] then 0 else values.sum / values.length

/-- `calculate_std` (app.py lines 14-21): sample standard deviation with
Bessel's correction, 0 when fewer than two samples. -/
def calculate_std (values : List ℝ) : ℝ :=
  let n := values.length
  if n < 2 then 0
  else
    let mean := calculate_mean values
    let squared := values.map (fun v => (v - mean) ^ 2)
    let variance := squared.sum / ((n : ℝ) - 1)
    Real.sqrt variance

/-- The OLS denominator `den = sum((x[i] - x_mean)**2)` of `calculate_trend`
(app.py line 32), where `x = list(range(n))`. -/
def trendDen (values : List ℝ) : ℝ :=
  let n := values.length
  let x := (List.range n).map (fun i => (i : ℝ))
  let x_mean := calculate_mean x
  ((List.range n).map (fun i => (x.getD i 0 - x_mean) ^ 2)).sum

/-- `calculate_trend` (app.py lines 24-33): OLS slope of `values` against
indices `0..n-1`; 0 when `n < 2` or the denominator is zero. -/
def calculate_trend (values : List ℝ) : ℝ :=
  let n := values.length
  if n < 2 then 0
  else
    let x := (List.range n).map (fun i => (i : ℝ))
    let x_mean := calculate_mean x
    let y_mean := calculate_mean values
    let num :=
      ((List.range n).map
        (fun i => (x.getD i 0 - x_mean) * (values.getD i 0 - y_mean))).sum
    if trendDen values ≠ 0 then num / trendDen values else 0

/-- Python's `max(l)` for a non-empty list: left fold of binary `max` over
the tail, seeded with the head.  Returns 0 on `[]` (where Python raises). -/
def listMax : List ℝ → ℝ
  | [] => 0
  | x :: xs => xs.foldl max x

/-- Python's `min(l)` for a non-empty list. -/
def listMin : List ℝ → ℝ
  | [] => 0
  | x :: xs => xs.foldl min x

/-- Python's `list.remove(x)`: drop the first element equal to `x`.  On a
list not containing `x` Python raises `ValueError`; here the list is
returned unchanged, which matches the source's `except ValueError` handler
(app.py lines 82-85) that replaces `rest` by an unchanged copy. -/
def removeFirst (x : ℝ) : List ℝ → List ℝ
  | [] => []
  | a :: as => if a = x then as else a :: removeFirst x as

/-- `eps = 1e-6` (app.py line 88). -/
def eps : ℝ := 1 / 1000000

/-- Python's `round(y, 2)` on reals: scale by 100, round to the nearest
integer, scale back.  (Python breaks ties to even while `round` here breaks
ties upward; no verified property depends on tie behaviour, since all uses
are about bounds and exact integer points.) -/
def pyRound2 (y : ℝ) : ℝ := ((round (y * 100) : ℤ) : ℝ) / 100

/-! ### Helper lemmas about the list primitives -/

theorem foldl_max_le_iff (a : ℝ) (xs : List ℝ) (b : ℝ) :
    xs.foldl max a ≤ b ↔ a ≤ b ∧ ∀ x ∈ xs, x ≤ b := by
  induction xs generalizing a with
  | nil => simp
  | cons y ys ih =>
      simp only [List.foldl_cons, ih, max_le_iff, List.mem_cons]
      constructor
      · rintro ⟨⟨h1, h2⟩, h3⟩
        exact ⟨h1, fun x hx => hx.elim (fun h => h ▸ h2) (h3 x)⟩
      · rintro ⟨h1, h2⟩
        exact ⟨⟨h1, h2 y (Or.inl rfl)⟩, fun x hx => h2 x (Or.inr hx)⟩

theorem foldl_max_mem (a : ℝ) (xs : List ℝ) :
    xs.foldl max a = a ∨ xs.foldl max a ∈ xs := by
  induction xs generalizing a with
  | nil => simp
  | cons y ys ih =>
      simp only [List.foldl_cons, List.mem_cons]
      rcases ih (max a y) with h | h
      · rcases max_choice a y with hm | hm
        · exact Or.inl (h.trans hm)
        · exact Or.inr (Or.inl (h.trans hm))
      · exact Or.inr (Or.inr h)

theorem listMax_mem {l : List ℝ} (h : l ≠ []) : listMax l ∈ l := by
  cases l with
  | nil => exact absurd rfl h
  | cons x xs =>
      show xs.foldl max x ∈ x :: xs
      rcases foldl_max_mem x xs with h1 | h1
      · rw [h1]; exact List.mem_cons_self x xs
      · exact List.mem_cons_of_mem x h1

theorem le_listMax {l : List ℝ} {x : ℝ} (hx : x ∈ l) : x ≤ listMax l := by
  cases l with
  | nil => simp at hx
  | cons a as =>
      have h := (foldl_max_le_iff a as (as.foldl max a)).mp le_rfl
      show x ≤ as.foldl max a
      rcases List.mem_cons.mp hx with h1 | h1
      · rw [h1]; exact h.1
      · exact h.2 x h1

theorem removeFirst_eq_erase (x : ℝ) (l : List ℝ) :
    removeFirst x l = l.erase x := by
  induction l with
  | nil => rfl
  | cons a as ih =>
      by_cases h : a = x
      · simp [removeFirst, h, List.erase_cons]
      · simp [removeFirst, h, List.erase_cons, ih]

/-! ### Helper lemmas about rounding and constant lists -/

theorem round_le_round {x y : ℝ} (h : x ≤ y) : round x ≤ round y := by
  rw [round_eq, round_eq]
  exact Int.floor_mono (by linarith)

theorem round_hundred : round ((100 : ℝ)) = 100 := by
  norm_num

theorem round_twentyfive_hundred : round ((2500 : ℝ)) = 2500 := by
  norm_num

theorem one_le_pyRound2 {y : ℝ} (h : 1 ≤ y) : 1 ≤ pyRound2 y := by
  have h1 : (100 : ℤ) ≤ round (y * 100) := by
    have := round_le_round (x := (100 : ℝ)) (y := y * 100) (by linarith)
    rwa [round_hundred] at this
  have h2 : (100 : ℝ) ≤ ((round (y * 100) : ℤ) : ℝ) := by exact_mod_cast h1
  rw [pyRound2]
  linarith

theorem pyRound2_le_25 {y : ℝ} (h : y ≤ 25) : pyRound2 y ≤ 25 := by
  have h1 : round (y * 100) ≤ (2500 : ℤ) := by
    have := round_le_round (x := y * 100) (y := (2500 : ℝ)) (by linarith)
    rwa [round_twentyfive_hundred] at this
  have h2 : ((round (y * 100) : ℤ) : ℝ) ≤ 2500 := by exact_mod_cast h1
  rw [pyRound2]
  linarith

theorem pyRound2_one : pyRound2 1 = 1 := by
  rw [pyRound2]
  norm_num [round_hundred]

theorem sum_of_all_eq {l : List ℝ} {c : ℝ} (h : ∀ x ∈ l, x = c) :
    l.sum = l.length * c := by
  induction l with
  | nil => simp
  | cons a as ih =>
      have ha : a = c := h a (List.mem_cons_self a as)
      have has : ∀ x ∈ as, x = c := fun x hx => h x (List.mem_cons_of_mem a hx)
      simp [ih has, ha]
      ring

theorem mean_of_all_eq {l : List ℝ} {c : ℝ} (hne : l ≠ [])
    (h : ∀ x ∈ l, x = c) : calculate_mean l = c := by
  have hlen : (l.length : ℝ) ≠ 0 := by
    simp only [ne_eq, Nat.cast_eq_zero, List.length_eq_zero]
    exact hne
  rw [calculate_mean, if_neg hne, sum_of_all_eq h, mul_comm,
    mul_div_assoc, div_self hlen, mul_one]

theorem std_of_all_eq {l : List ℝ} {c : ℝ} (h : ∀ x ∈ l, x = c) :
    calculate_std l = 0 := by
  rw [calculate_std]
  by_cases hn : l.length < 2
  · simp [hn]
  · have hne : l ≠ [] := by
      intro he
      rw [he] at hn
      simp at hn
    have hmean : calculate_mean l = c := mean_of_all_eq hne h
    have hsq : (l.map (fun v => (v - calculate_mean l) ^ 2)).sum = 0 := by
      apply List.sum_eq_zero
      intro x hx
      rcases List.mem_map.mp hx with ⟨v, hv, rfl⟩
      rw [hmean, h v hv]
      ring
    simp only [hn, if_false]
    rw [hsq, zero_div, Real.sqrt_zero]

theorem std_nonneg (l : List ℝ) : 0 ≤ calculate_std l := by
  rw [calculate_std]
  by_cases hn : l.length < 2
  · simp [hn]
  · simp only [hn, if_false]
    exact Real.sqrt_nonneg _

theorem eps_pos : 0 < eps := by norm_num [eps]

/-! ### The Extreme Value Estimator (`calculate_pmp_with_eva`, app.py 72-119)

Each intermediate value of the Python function body is a named definition;
`calculate_pmp_with_eva` assembles them into the returned record. -/

/-- `rest` (app.py lines 80-85): a copy of the series with the first
occurrence of `Xmax` removed; the `except ValueError` path (value absent)
leaves an unchanged copy, which `removeFirst` also yields in that case. -/
def evaRest (l : List ℝ) : List ℝ := removeFirst (listMax l) l

/-- `Xmean` (app.py lines 90-94): mean of `rest` when non-empty, else the
full-sample mean. -/
def evaXmean (l : List ℝ) : ℝ :=
  if evaRest l ≠ [] then calculate_mean (evaRest l) else calculate_mean l

/-- `S` (app.py lines 92-95): std of `rest` (or of the full series when
`rest` is empty), floored at `eps`. -/
def evaS (l : List ℝ) : ℝ :=
  if evaRest l ≠ [] then max (calculate_std (evaRest l)) eps
  else max (calculate_std l) eps

/-- `km_a = (Xmax - Xmean) / S` (app.py line 98). -/
def evaKmA (l : List ℝ) : ℝ := (listMax l - evaXmean l) / evaS l

/-- `km_b = (Xmax - mean) / max(std, eps)` (app.py line 99). -/
def evaKmB (l : List ℝ) : ℝ :=
  (listMax l - calculate_mean l) / max (calculate_std l) eps

/-- `frequency_factor_raw = max(km_a, km_b)` (app.py line 102). -/
def evaFrequencyFactorRaw (l : List ℝ) : ℝ := max (evaKmA l) (evaKmB l)

/-- `frequency_factor` clamped to `[1, 25]` and rounded to 2 decimal places
(app.py lines 105-106). -/
def evaFrequencyFactor (l : List ℝ) : ℝ :=
  pyRound2 (max 1 (min 25 (evaFrequencyFactorRaw l)))

/-- `pmp = mean + frequency_factor * std` (app.py line 109). -/
def evaPmp (l : List ℝ) : ℝ :=
  calculate_mean l + evaFrequencyFactor l * calculate_std l

/-- `standard_error = std / (sqrt(n) if n > 0 else 1)` (app.py line 113). -/
def evaStandardError (l : List ℝ) : ℝ :=
  calculate_std l / (if 0 < l.length then Real.sqrt l.length else 1)

structure ConfidenceInterval where
  lower : ℝ
  upper : ℝ

structure EVAResult where
  pmp : ℝ
  frequencyFactor : ℝ
  confidenceInterval : ConfidenceInterval

/-- `calculate_pmp_with_eva` (app.py lines 72-119). -/
def calculate_pmp_with_eva (amdp_values : List ℝ) : EVAResult :=
  { pmp := evaPmp amdp_values
    frequencyFactor := evaFrequencyFactor amdp_values
    confidenceInterval :=
      { lower := evaPmp amdp_values - 1.96 * evaStandardError amdp_values
        upper := evaPmp amdp_values + 1.96 * evaStandardError amdp_values } }

theorem one_le_evaFrequencyFactor (l : List ℝ) : 1 ≤ evaFrequencyFactor l :=
  one_le_pyRound2 (le_max_left 1 _)

theorem evaFrequencyFactor_le_25 (l : List ℝ) : evaFrequencyFactor l ≤ 25 :=
  pyRound2_le_25 (max_le (by norm_num) (min_le_left 25 _))

theorem eps_le_evaS (l : List ℝ) : eps ≤ evaS l := by
  rw [evaS]
  by_cases h : evaRest l ≠ [] <;> simp [h, le_max_right]

theorem rest_subset {l : List ℝ} {x : ℝ} (hx : x ∈ evaRest l) : x ∈ l := by
  rw [evaRest, removeFirst_eq_erase] at hx
  exact List.mem_of_mem_erase hx

/-- On an all-equal series the std vanishes, both candidate frequency
factors are 0, the factor clamps to 1, and the pmp is the constant. -/
theorem eva_const {l : List ℝ} {c : ℝ} (hne : l ≠ []) (h : ∀ x ∈ l, x = c) :
    calculate_std l = 0 ∧ evaKmA l = 0 ∧ evaKmB l = 0 ∧
      evaFrequencyFactor l = 1 ∧ evaPmp l = c := by
  have hstd : calculate_std l = 0 := std_of_all_eq h
  have hmean : calculate_mean l = c := mean_of_all_eq hne h
  have hmax : listMax l = c := h _ (listMax_mem hne)
  have hrest : ∀ x ∈ evaRest l, x = c := fun x hx => h x (rest_subset hx)
  have hXmean : evaXmean l = c := by
    rw [evaXmean]
    by_cases hr : evaRest l ≠ []
    · rw [if_pos hr]
      exact mean_of_all_eq hr hrest
    · rw [if_neg hr]
      exact hmean
  have hKmA : evaKmA l = 0 := by
    rw [evaKmA, hmax, hXmean, sub_self, zero_div]
  have hKmB : evaKmB l = 0 := by
    rw [evaKmB, hmax, hmean, sub_self, zero_div]
  have hff : evaFrequencyFactor l = 1 := by
    rw [evaFrequencyFactor, evaFrequencyFactorRaw, hKmA, hKmB, max_self,
      min_eq_right (by norm_num : (0 : ℝ) ≤ 25),
      max_eq_left (by norm_num : (0 : ℝ) ≤ 1), pyRound2_one]
  refine ⟨hstd, hKmA, hKmB, hff, ?_⟩
  rw [evaPmp, hmean, hstd, hff]
  ring

/-! ### Claims about the Extreme Value Estimator -/

/-- Claim C1: for every non-empty AMDP series of positive numbers, the
frequencyFactor returned by `calculate_pmp_with_eva` lies in the closed
interval `[1.0, 25.0]`. -/
theorem frequencyFactor_bounds (l : List ℝ) (hne : l ≠ [])
    (hpos : ∀ x ∈ l, 0 < x) :
    1 ≤ (calculate_pmp_with_eva l).frequencyFactor ∧
      (calculate_pmp_with_eva l).frequencyFactor ≤ 25 :=
  ⟨one_le_evaFrequencyFactor l, evaFrequencyFactor_le_25 l⟩

theorem frequencyFactor_bounds_witness :
    ([(2 : ℝ), 3] ≠ [] ∧ (∀ x ∈ [(2 : ℝ), 3], 0 < x)) ∧
      1 ≤ (calculate_pmp_with_eva [(2 : ℝ), 3]).frequencyFactor ∧
        (calculate_pmp_with_eva [(2 : ℝ), 3]).frequencyFactor ≤ 25 :=
  ⟨⟨by simp, by norm_num⟩,
    frequencyFactor_bounds [2, 3] (by simp) (by norm_num)⟩

/-- Claim C2: for every non-empty AMDP series, the returned pmp equals
`mean + frequencyFactor * std` and is at least the mean of the series
(the factor is clamped to at least 1 and the sample std is nonnegative). -/
theorem pmp_ge_mean (l : List ℝ) (hne : l ≠ []) :
    (calculate_pmp_with_eva l).pmp =
        calculate_mean l +
          (calculate_pmp_with_eva l).frequencyFactor * calculate_std l ∧
      calculate_mean l ≤ (calculate_pmp_with_eva l).pmp := by
  refine ⟨rfl, ?_⟩
  have h1 : (1 : ℝ) ≤ evaFrequencyFactor l := one_le_evaFrequencyFactor l
  have h2 : 0 ≤ calculate_std l := std_nonneg l
  have h3 : 0 ≤ evaFrequencyFactor l * calculate_std l :=
    mul_nonneg (by linarith) h2
  show calculate_mean l ≤ evaPmp l
  rw [evaPmp]
  linarith

theorem pmp_ge_mean_witness :
    ([(2 : ℝ), 3] ≠ []) ∧
      (calculate_pmp_with_eva [(2 : ℝ), 3]).pmp =
          calculate_mean [(2 : ℝ), 3] +
            (calculate_pmp_with_eva [(2 : ℝ), 3]).frequencyFactor *
              calculate_std [(2 : ℝ), 3] ∧
        calculate_mean [(2 : ℝ), 3] ≤ (calculate_pmp_with_eva [(2 : ℝ), 3]).pmp :=
  ⟨by simp, pmp_ge_mean [2, 3] (by simp)⟩

/-- Claim C3: `rest` is the input series with exactly one occurrence of the
maximum removed — its length drops by one, the count of the maximum drops by
exactly one, every other value keeps its multiplicity; concretely
`rest` of `[50, 50, 10, 12]` is `[50, 10, 12]`, and `rest` of a singleton is
empty. -/
theorem evaRest_spec :
    (∀ l : List ℝ, l ≠ [] →
        (evaRest l).length + 1 = l.length ∧
          (evaRest l).count (listMax l) + 1 = l.count (listMax l) ∧
          ∀ x : ℝ, x ≠ listMax l → (evaRest l).count x = l.count x) ∧
      evaRest [(50 : ℝ), 50, 10, 12] = [50, 10, 12] ∧
      ∀ a : ℝ, evaRest [a] = [] := by
  refine ⟨fun l hne => ?_, ?_, fun a => ?_⟩
  · have hmem : listMax l ∈ l := listMax_mem hne
    rw [evaRest, removeFirst_eq_erase]
    have hpos : 0 < l.count (listMax l) := List.count_pos_iff.mpr hmem
    refine ⟨List.length_erase_add_one hmem, ?_, fun x hx => ?_⟩
    · rw [List.count_erase_self]
      omega
    · exact List.count_erase_of_ne hx l
  · have hmax : listMax [(50 : ℝ), 50, 10, 12] = 50 := by
      norm_num [listMax, max_def]
    rw [evaRest, hmax]
    norm_num [removeFirst]
  · simp [evaRest, listMax, removeFirst]

theorem evaRest_spec_witness :
    ([(50 : ℝ), 50, 10, 12] ≠ []) ∧
      (evaRest [(50 : ℝ), 50, 10, 12]).length + 1 =
          ([(50 : ℝ), 50, 10, 12]).length ∧
        (evaRest [(50 : ℝ), 50, 10, 12]).count (listMax [(50 : ℝ), 50, 10, 12]) + 1 =
          ([(50 : ℝ), 50, 10, 12]).count (listMax [(50 : ℝ), 50, 10, 12]) ∧
        ∀ x : ℝ, x ≠ listMax [(50 : ℝ), 50, 10, 12] →
          (evaRest [(50 : ℝ), 50, 10, 12]).count x =
            ([(50 : ℝ), 50, 10, 12]).count x :=
  ⟨by simp, evaRest_spec.1 [50, 50, 10, 12] (by simp)⟩

/-- Claim C6: on a non-empty all-equal series with value `c`, the full-sample
std is 0, both candidate factors `km_a` and `km_b` are 0, the frequency
factor clamps to exactly 1, and the pmp equals `c`. -/
theorem eva_constant_series (c : ℝ) (l : List ℝ) (hne : l ≠ [])
    (h : ∀ x ∈ l, x = c) :
    calculate_std l = 0 ∧ evaKmA l = 0 ∧ evaKmB l = 0 ∧
      (calculate_pmp_with_eva l).frequencyFactor = 1 ∧
      (calculate_pmp_with_eva l).pmp = c :=
  eva_const hne h

theorem eva_constant_series_witness :
    ([(7 : ℝ), 7, 7] ≠ [] ∧ (∀ x ∈ [(7 : ℝ), 7, 7], x = 7)) ∧
      calculate_std [(7 : ℝ), 7, 7] = 0 ∧ evaKmA [(7 : ℝ), 7, 7] = 0 ∧
        evaKmB [(7 : ℝ), 7, 7] = 0 ∧
        (calculate_pmp_with_eva [(7 : ℝ), 7, 7]).frequencyFactor = 1 ∧
        (calculate_pmp_with_eva [(7 : ℝ), 7, 7]).pmp = 7 :=
  ⟨⟨by simp, by norm_num⟩, eva_constant_series 7 [7, 7, 7] (by simp) (by norm_num)⟩

/-! ### Division-checked variant of the estimator (for the safety claim) -/

/-- Division that signals failure instead of Python's `ZeroDivisionError`. -/
def guardedDiv (a b : ℝ) : Option ℝ :=
  if b = 0 then none else some (a / b)

/-- `calculate_pmp_with_eva` with every division of its body checked, and
`none` for an empty input (where Python's `max([])` raises `ValueError`). -/
def calculate_pmp_with_eva_checked (l : List ℝ) : Option EVAResult :=
  if l = [] then none
  else
    (guardedDiv (listMax l - evaXmean l) (evaS l)).bind fun km_a =>
      (guardedDiv (listMax l - calculate_mean l)
          (max (calculate_std l) eps)).bind fun km_b =>
        (guardedDiv (calculate_std l)
            (if 0 < l.length then Real.sqrt l.length else 1)).bind fun se =>
          let ff := pyRound2 (max 1 (min 25 (max km_a km_b)))
          let pmp := calculate_mean l + ff * calculate_std l
          some ⟨pmp, ff, ⟨pmp - 1.96 * se, pmp + 1.96 * se⟩⟩

/-- Claim C5: on any non-empty series the estimator never divides by zero —
the divisors `S` and `max(std, eps)` are at least `eps = 1e-6` and the
standard-error divisor is positive — so the division-checked run succeeds
and returns exactly the unchecked result. -/
theorem eva_total_on_nonempty (l : List ℝ) (hne : l ≠ []) :
    eps ≤ evaS l ∧ eps ≤ max (calculate_std l) eps ∧
      0 < (if 0 < l.length then Real.sqrt l.length else 1) ∧
      calculate_pmp_with_eva_checked l = some (calculate_pmp_with_eva l) := by
  have hS : evaS l ≠ 0 := by
    have := eps_le_evaS l
    have := eps_pos
    linarith
  have hB : max (calculate_std l) eps ≠ 0 := by
    have := le_max_right (calculate_std l) eps
    have := eps_pos
    linarith
  have hlen : 0 < l.length := List.length_pos.mpr hne
  have hsqrt : (0 : ℝ) < (if 0 < l.length then Real.sqrt l.length else 1) := by
    rw [if_pos hlen]
    exact Real.sqrt_pos.mpr (by exact_mod_cast hlen)
  refine ⟨eps_le_evaS l, le_max_right _ _, hsqrt, ?_⟩
  rw [calculate_pmp_with_eva_checked, if_neg hne]
  rw [guardedDiv, if_neg hS, Option.some_bind, guardedDiv, if_neg hB,
    Option.some_bind, guardedDiv, if_neg (ne_of_gt hsqrt), Option.some_bind]
  rfl

theorem eva_total_on_nonempty_witness :
    ([(2 : ℝ), 3] ≠ []) ∧
      eps ≤ evaS [(2 : ℝ), 3] ∧
        eps ≤ max (calculate_std [(2 : ℝ), 3]) eps ∧
        0 < (if 0 < ([(2 : ℝ), 3]).length then
              Real.sqrt ([(2 : ℝ), 3]).length else 1) ∧
        calculate_pmp_with_eva_checked [(2 : ℝ), 3] =
          some (calculate_pmp_with_eva [(2 : ℝ), 3]) :=
  ⟨by simp, eva_total_on_nonempty [2, 3] (by simp)⟩

/-- Claim C7: on any non-empty series of length `n` the confidence interval
is `pmp ∓ 1.96 * (std / sqrt n)`, and the embedded standard-error divisor
falls back to 1 when the length is 0. -/
theorem confidenceInterval_spec (l : List ℝ) (hne : l ≠ []) :
    ((calculate_pmp_with_eva l).confidenceInterval.lower =
        (calculate_pmp_with_eva l).pmp -
          1.96 * (calculate_std l / Real.sqrt l.length) ∧
      (calculate_pmp_with_eva l).confidenceInterval.upper =
        (calculate_pmp_with_eva l).pmp +
          1.96 * (calculate_std l / Real.sqrt l.length)) ∧
      ∀ m : List ℝ, m.length = 0 → evaStandardError m = calculate_std m / 1 := by
  have hlen : 0 < l.length := List.length_pos.mpr hne
  have hse : evaStandardError l = calculate_std l / Real.sqrt l.length := by
    rw [evaStandardError, if_pos hlen]
  have hpmp : (calculate_pmp_with_eva l).pmp = evaPmp l := rfl
  have hlow : (calculate_pmp_with_eva l).confidenceInterval.lower =
      evaPmp l - 1.96 * evaStandardError l := rfl
  have hup : (calculate_pmp_with_eva l).confidenceInterval.upper =
      evaPmp l + 1.96 * evaStandardError l := rfl
  exact ⟨⟨by rw [hlow, hpmp, hse], by rw [hup, hpmp, hse]⟩,
    fun m hm => by rw [evaStandardError, if_neg (by omega)]⟩

theorem confidenceInterval_spec_witness :
    ([(3 : ℝ), 4] ≠ []) ∧
      ((calculate_pmp_with_eva [(3 : ℝ), 4]).confidenceInterval.lower =
          (calculate_pmp_with_eva [(3 : ℝ), 4]).pmp -
            1.96 * (calculate_std [(3 : ℝ), 4] / Real.sqrt ([(3 : ℝ), 4]).length) ∧
        (calculate_pmp_with_eva [(3 : ℝ), 4]).confidenceInterval.upper =
          (calculate_pmp_with_eva [(3 : ℝ), 4]).pmp +
            1.96 * (calculate_std [(3 : ℝ), 4] / Real.sqrt ([(3 : ℝ), 4]).length)) ∧
      ∀ m : List ℝ, m.length = 0 → evaStandardError m = calculate_std m / 1 :=
  ⟨by simp, confidenceInterval_spec [3, 4] (by simp)⟩

/-- Claim C8: the descriptive-statistics primitives return the zero sentinel
on degenerate input — mean of `[]` is 0, sample std of fewer than two
samples is 0, trend of fewer than two samples is 0, and trend is 0 whenever
the index-variance denominator is zero. -/
theorem descriptive_stats_sentinels :
    calculate_mean ([] : List ℝ) = 0 ∧
      (∀ l : List ℝ, l.length < 2 → calculate_std l = 0) ∧
      (∀ l : List ℝ, l.length < 2 → calculate_trend l = 0) ∧
      (∀ l : List ℝ, trendDen l = 0 → calculate_trend l = 0) := by
  refine ⟨by simp [calculate_mean], fun l h => ?_, fun l h => ?_, fun l h => ?_⟩
  · rw [calculate_std]
    simp [h]
  · rw [calculate_trend]
    simp [h]
  · rw [calculate_trend]
    by_cases h2 : l.length < 2
    · simp [h2]
    · simp [h2, h]

theorem range_one_eval : List.range 1 = [0] := by decide

theorem trendDen_singleton (a : ℝ) : trendDen [a] = 0 := by
  rw [trendDen]
  simp only [List.length_cons, List.length_nil, zero_add, range_one_eval,
    List.map_cons, List.map_nil]
  norm_num [calculate_mean, List.getD_cons_zero]

theorem descriptive_stats_sentinels_witness :
    (([(5 : ℝ)]).length < 2 ∧ trendDen [(5 : ℝ)] = 0) ∧
      calculate_std [(5 : ℝ)] = 0 ∧ calculate_trend [(5 : ℝ)] = 0 ∧
        calculate_trend [(5 : ℝ)] = 0 :=
  ⟨⟨by norm_num, trendDen_singleton 5⟩,
    descriptive_stats_sentinels.2.1 [5] (by norm_num),
    descriptive_stats_sentinels.2.2.1 [5] (by norm_num),
    descriptive_stats_sentinels.2.2.2 [5] (trendDen_singleton 5)⟩

/-! ### The Hydrological Parameter Calculator (app.py 121-149) -/

/-- An annual summary record as built by `process_yearly_data`
(app.py lines 60-69); absent aggregates are `none`. -/
structure AnnualSummary where
  year : ℤ
  amdp : ℝ
  totalPrecip : ℝ
  avgTemp : Option ℝ
  maxTemp : Option ℝ
  minTemp : Option ℝ
  avgWind : Option ℝ
  dataPoints : ℕ

/-- The final report record (app.py lines 136-149). -/
structure HydrologicalReport where
  meanAMDP : ℝ
  stdAMDP : ℝ
  meanAnnualPrecip : ℝ
  pmp : ℝ
  pmpUnadjusted : ℝ
  frequencyFactor : ℝ
  climateAdjustment : ℝ
  trend : ℝ
  variability : ℝ
  dataPoints : ℕ
  yearsCovered : ℕ

/-- `calculate_hydrological_parameters` (app.py lines 121-149). -/
def calculate_hydrological_parameters (annual_data : List AnnualSummary)
    (climate_factor : ℝ) : HydrologicalReport :=
  let amdp_values := annual_data.map (fun d => d.amdp)
  let total_precip_vals := annual_data.map (fun d => d.totalPrecip)
  let mean_amdp := calculate_mean amdp_values
  let std_amdp := calculate_std amdp_values
  let mean_annual_precip := calculate_mean total_precip_vals
  let eva_results := calculate_pmp_with_eva amdp_values
  let adjusted_pmp :=
    if 0 < climate_factor then eva_results.pmp * (1 + climate_factor)
    else eva_results.pmp
  let trend := calculate_trend amdp_values
  let variability := if mean_amdp ≠ 0 then std_amdp / mean_amdp * 100 else 0
  { meanAMDP := mean_amdp
    stdAMDP := std_amdp
    meanAnnualPrecip := mean_annual_precip
    pmp := adjusted_pmp
    pmpUnadjusted := eva_results.pmp
    frequencyFactor := eva_results.frequencyFactor
    climateAdjustment := climate_factor
    trend := trend
    variability := variability
    dataPoints := annual_data.length
    yearsCovered := annual_data.length }

/-- Claim C4 counterexample: for the single-year input with AMDP 0 and
climate factor 1 (which is `> 0`), the adjusted pmp equals the unadjusted
pmp — it is not strictly greater, because the unadjusted pmp is 0. -/
theorem climate_adjustment_not_strict_at_zero_pmp :
    (0 : ℝ) < 1 ∧
      ¬ (calculate_hydrological_parameters
            [⟨2020, 0, 0, none, none, none, none, 1⟩] 1).pmpUnadjusted <
          (calculate_hydrological_parameters
            [⟨2020, 0, 0, none, none, none, none, 1⟩] 1).pmp := by
  have h0 : evaPmp [(0 : ℝ)] = 0 :=
    (eva_const (c := 0) (by simp) (by simp)).2.2.2.2
  have hun : (calculate_hydrological_parameters
      [⟨2020, 0, 0, none, none, none, none, 1⟩] 1).pmpUnadjusted = 0 := h0
  have had : (calculate_hydrological_parameters
      [⟨2020, 0, 0, none, none, none, none, 1⟩] 1).pmp = 0 := by
    show (if (0 : ℝ) < 1 then evaPmp [(0 : ℝ)] * (1 + 1) else evaPmp [(0 : ℝ)]) = 0
    rw [if_pos (by norm_num), h0, zero_mul]
  rw [hun, had]
  simp

/-- Claim C4 (amended): the climate adjustment is the identity for
`climateFactor ≤ 0`, multiplies by `1 + climateFactor` for
`climateFactor > 0`, and is strictly increasing for `climateFactor > 0`
provided the unadjusted pmp is positive (with a zero unadjusted pmp — e.g.
an all-zero AMDP series — the adjusted and unadjusted values coincide). -/
theorem climate_adjustment_spec (annual_data : List AnnualSummary) (cf : ℝ) :
    (cf ≤ 0 →
        (calculate_hydrological_parameters annual_data cf).pmp =
          (calculate_hydrological_parameters annual_data cf).pmpUnadjusted) ∧
      (0 < cf →
        (calculate_hydrological_parameters annual_data cf).pmp =
          (calculate_hydrological_parameters annual_data cf).pmpUnadjusted *
            (1 + cf)) ∧
      (0 < cf →
        0 < (calculate_hydrological_parameters annual_data cf).pmpUnadjusted →
        (calculate_hydrological_parameters annual_data cf).pmpUnadjusted <
          (calculate_hydrological_parameters annual_data cf).pmp) := by
  have hun : (calculate_hydrological_parameters annual_data cf).pmpUnadjusted =
      evaPmp (annual_data.map (fun d => d.amdp)) := rfl
  have had : (calculate_hydrological_parameters annual_data cf).pmp =
      (if 0 < cf then evaPmp (annual_data.map (fun d => d.amdp)) * (1 + cf)
        else evaPmp (annual_data.map (fun d => d.amdp))) := rfl
  refine ⟨fun h => ?_, fun h => ?_, fun h hp => ?_⟩
  · rw [hun, had, if_neg (not_lt.mpr h)]
  · rw [hun, had, if_pos h]
  · rw [hun] at hp
    rw [hun, had, if_pos h]
    nlinarith [mul_pos hp h]

theorem climate_adjustment_spec_witness :
    ((-1 : ℝ) ≤ 0 ∧
      (calculate_hydrological_parameters
          [⟨2020, 2, 2, none, none, none, none, 1⟩] (-1)).pmp =
        (calculate_hydrological_parameters
          [⟨2020, 2, 2, none, none, none, none, 1⟩] (-1)).pmpUnadjusted) ∧
      ((0 : ℝ) < 1 ∧
        0 < (calculate_hydrological_parameters
            [⟨2020, 2, 2, none, none, none, none, 1⟩] 1).pmpUnadjusted ∧
        (calculate_hydrological_parameters
            [⟨2020, 2, 2, none, none, none, none, 1⟩] 1).pmpUnadjusted <
          (calculate_hydrological_parameters
            [⟨2020, 2, 2, none, none, none, none, 1⟩] 1).pmp) := by
  have h2 : evaPmp [(2 : ℝ)] = 2 :=
    (eva_const (c := 2) (by simp) (by simp)).2.2.2.2
  have hp : 0 < (calculate_hydrological_parameters
      [⟨2020, 2, 2, none, none, none, none, 1⟩] 1).pmpUnadjusted := by
    show (0 : ℝ) < evaPmp [(2 : ℝ)]
    rw [h2]
    norm_num
  exact ⟨⟨by norm_num,
      (climate_adjustment_spec [⟨2020, 2, 2, none, none, none, none, 1⟩]
        (-1)).1 (by norm_num)⟩,
    ⟨by norm_num, hp,
      (climate_adjustment_spec [⟨2020, 2, 2, none, none, none, none, 1⟩]
        1).2.2 (by norm_num) hp⟩⟩

/-! ### The Yearly Aggregator (`process_yearly_data`, app.py 36-69) -/

/-- One year's daily series as read from the `daily` mapping
(app.py lines 37-42); an absent sample is `none`. -/
structure DailyData where
  time : List String
  precipitation_sum : List (Option ℝ)
  temperature_2m_max : List (Option ℝ)
  temperature_2m_min : List (Option ℝ)
  temperature_2m_mean : List (Option ℝ)
  windspeed_10m_max : List (Option ℝ)

/-- `[v for v in series if v is not None and v >= 0]` (app.py line 44). -/
def validNonneg (series : List (Option ℝ)) : List ℝ :=
  series.filterMap (fun v => v.bind (fun x => if 0 ≤ x then some x else none))

/-- `[v for v in series if v is not None]` (app.py lines 45-48). -/
def validPresent (series : List (Option ℝ)) : List ℝ :=
  series.filterMap id

/-- `process_yearly_data` (app.py lines 36-69); `none` models Python's
`return None` for a year with no valid precipitation sample. -/
def process_yearly_data (daily : DailyData) (year : ℤ) :
    Option AnnualSummary :=
  let valid_precip := validNonneg daily.precipitation_sum
  let valid_tmax := validPresent daily.temperature_2m_max
  let valid_tmin := validPresent daily.temperature_2m_min
  let valid_tmean := validPresent daily.temperature_2m_mean
  let valid_wind := validPresent daily.windspeed_10m_max
  if valid_precip = [] then none
  else some
    { year := year
      amdp := listMax valid_precip
      totalPrecip := valid_precip.sum
      avgTemp :=
        if valid_tmean ≠ [] then some (calculate_mean valid_tmean) else none
      maxTemp := if valid_tmax ≠ [] then some (listMax valid_tmax) else none
      minTemp := if valid_tmin ≠ [] then some (listMin valid_tmin) else none
      avgWind :=
        if valid_wind ≠ [] then some (calculate_mean valid_wind) else none
      dataPoints := valid_precip.length }

/-- Claim C9: the aggregator returns no summary exactly when the valid
(present and nonnegative) precipitation subset is empty; otherwise the
summary's `amdp` is the maximum and `totalPrecip` the sum of that subset,
`dataPoints` counts it, and each temperature/wind aggregate is absent
exactly when its own valid subset is empty. -/
theorem process_yearly_data_spec (daily : DailyData) (year : ℤ) :
    (process_yearly_data daily year = none ↔
        validNonneg daily.precipitation_sum = []) ∧
      ∀ s : AnnualSummary, process_yearly_data daily year = some s →
        s.amdp ∈ validNonneg daily.precipitation_sum ∧
          (∀ x ∈ validNonneg daily.precipitation_sum, x ≤ s.amdp) ∧
          s.totalPrecip = (validNonneg daily.precipitation_sum).sum ∧
          s.dataPoints = (validNonneg daily.precipitation_sum).length ∧
          (s.avgTemp = none ↔ validPresent daily.temperature_2m_mean = []) ∧
          (s.maxTemp = none ↔ validPresent daily.temperature_2m_max = []) ∧
          (s.minTemp = none ↔ validPresent daily.temperature_2m_min = []) ∧
          (s.avgWind = none ↔ validPresent daily.windspeed_10m_max = []) := by
  constructor
  · rw [process_yearly_data]
    by_cases hp : validNonneg daily.precipitation_sum = [] <;> simp [hp]
  · intro s hs
    rw [process_yearly_data] at hs
    by_cases hp : validNonneg daily.precipitation_sum = []
    · simp [hp] at hs
    · rw [if_neg hp] at hs
      have hs' := Option.some.inj hs
      subst hs'
      refine ⟨listMax_mem hp, fun x hx => le_listMax hx, rfl, rfl, ?_, ?_, ?_, ?_⟩
      · by_cases h : validPresent daily.temperature_2m_mean = [] <;> simp [h]
      · by_cases h : validPresent daily.temperature_2m_max = [] <;> simp [h]
      · by_cases h : validPresent daily.temperature_2m_min = [] <;> simp [h]
      · by_cases h : validPresent daily.windspeed_10m_max = [] <;> simp [h]

theorem process_yearly_data_spec_witness :
    (process_yearly_data
          ⟨[], [some 5, none, some (-2), some 3], [some 20, none], [some 1],
            [], [none]⟩ 2021 =
        some ⟨2021, 5, 8, none, some 20, some 1, none, 2⟩) ∧
      ((5 : ℝ) ∈ validNonneg [some 5, none, some (-2), some 3] ∧
        (∀ x ∈ validNonneg [some (5 : ℝ), none, some (-2), some 3], x ≤ 5) ∧
        (8 : ℝ) = (validNonneg [some (5 : ℝ), none, some (-2), some 3]).sum ∧
        2 = (validNonneg [some (5 : ℝ), none, some (-2), some 3]).length ∧
        ((none : Option ℝ) = none ↔ validPresent ([] : List (Option ℝ)) = []) ∧
        (some (20 : ℝ) = none ↔ validPresent [some (20 : ℝ), none] = []) ∧
        (some (1 : ℝ) = none ↔ validPresent [some (1 : ℝ)] = []) ∧
        ((none : Option ℝ) = none ↔ validPresent [(none : Option ℝ)] = [])) := by
  have heval : process_yearly_data
      ⟨[], [some 5, none, some (-2), some 3], [some 20, none], [some 1],
        [], [none]⟩ 2021 =
      some ⟨2021, 5, 8, none, some 20, some 1, none, 2⟩ := by
    have hvp : validNonneg [some (5 : ℝ), none, some (-2), some 3] = [5, 3] := by
      norm_num [validNonneg, List.filterMap_cons]
    have htmax : validPresent [some (20 : ℝ), none] = [20] := by
      norm_num [validPresent, List.filterMap_cons]
    have htmin : validPresent [some (1 : ℝ)] = [1] := by
      norm_num [validPresent, List.filterMap_cons]
    have hwind : validPresent [(none : Option ℝ)] = [] := by
      norm_num [validPresent, List.filterMap_cons]
    have htmean : validPresent ([] : List (Option ℝ)) = [] := rfl
    simp only [process_yearly_data, hvp, htmax, htmin, hwind, htmean]
    norm_num [listMax, listMin, max_def]
    intro h
    simp at h
  exact ⟨heval,
    (process_yearly_data_spec
        ⟨[], [some 5, none, some (-2), some 3], [some 20, none], [some 1],
          [], [none]⟩ 2021).2
      ⟨2021, 5, 8, none, some 20, some 1, none, 2⟩ heval⟩

/-! ### Heap model of the duplicate-removal step (app.py 78-85)

Python lists are mutable heap objects; `rest = amdp_values.copy()` allocates
a fresh object and `rest.remove(Xmax)` mutates it in place.  The heap is a
sequence of list cells addressed by index, so aliasing is expressible: had
the copy been skipped, the removal would write through the input's own
address. -/

/-- A heap of Python list objects: cell `r` holds the list stored at
address `r`. -/
structure PyListHeap where
  cells : List (List ℝ)

def readCell (h : PyListHeap) (r : ℕ) : List ℝ := (h.cells[r]?).getD []

/-- Allocate a fresh list object; returns the new heap and the address. -/
def allocCell (h : PyListHeap) (v : List ℝ) : PyListHeap × ℕ :=
  (⟨h.cells ++ [v]⟩, h.cells.length)

/-- Overwrite the object at address `r` (in-place mutation). -/
def writeCell (h : PyListHeap) (r : ℕ) (v : List ℝ) : PyListHeap :=
  ⟨h.cells.set r v⟩

/-- app.py lines 78-85 as heap steps: read the series at `amdpRef`, take its
maximum, allocate `rest = amdp_values.copy()`, then mutate the copy in
place with `rest.remove(Xmax)`.  Returns the heap and the address of
`rest`. -/
def restSteps (h : PyListHeap) (amdpRef : ℕ) : PyListHeap × ℕ :=
  let xmax := listMax (readCell h amdpRef)
  let alloc := allocCell h (readCell h amdpRef)
  let h1 := alloc.1
  let restRef := alloc.2
  let h2 := writeCell h1 restRef (removeFirst xmax (readCell h1 restRef))
  (h2, restRef)

/-- Claim C10: the duplicate-removal step does not mutate its input — after
running it, the list at the input's address is unchanged, the `rest` object
lives at a distinct address, and it holds the series with one occurrence of
the maximum removed. -/
theorem eva_input_not_mutated (h : PyListHeap) (amdpRef : ℕ)
    (hr : amdpRef < h.cells.length) :
    readCell (restSteps h amdpRef).1 amdpRef = readCell h amdpRef ∧
      (restSteps h amdpRef).2 ≠ amdpRef ∧
      readCell (restSteps h amdpRef).1 (restSteps h amdpRef).2 =
        evaRest (readCell h amdpRef) := by
  have hL : amdpRef ≠ h.cells.length := Nat.ne_of_lt hr
  simp only [restSteps, allocCell, writeCell, readCell, evaRest]
  refine ⟨?_, Ne.symm hL, ?_⟩
  · rw [List.getElem?_set_ne (Ne.symm hL), List.getElem?_append_left hr]
  · rw [List.getElem?_set_self (by simp), List.getElem?_concat_length]
    rfl

theorem eva_input_not_mutated_witness :
    (0 < (PyListHeap.mk [[(50 : ℝ), 50, 10, 12]]).cells.length) ∧
      readCell (restSteps (PyListHeap.mk [[(50 : ℝ), 50, 10, 12]]) 0).1 0 =
          readCell (PyListHeap.mk [[(50 : ℝ), 50, 10, 12]]) 0 ∧
        (restSteps (PyListHeap.mk [[(50 : ℝ), 50, 10, 12]]) 0).2 ≠ 0 ∧
        readCell (restSteps (PyListHeap.mk [[(50 : ℝ), 50, 10, 12]]) 0).1
            (restSteps (PyListHeap.mk [[(50 : ℝ), 50, 10, 12]]) 0).2 =
          evaRest (readCell (PyListHeap.mk [[(50 : ℝ), 50, 10, 12]]) 0) :=
  ⟨by simp,
    eva_input_not_mutated (PyListHeap.mk [[(50 : ℝ), 50, 10, 12]]) 0 (by simp)⟩

end BTP
